import Mathlib

/-!
Verification development for the Mooncake slab-based memory allocator core
(cachelib_memory_allocator/MemoryAllocator.h).  The repository ships only the
facade header under src/; the bodies of the collaborating classes
(SlabAllocator, AllocationClass, MemoryPool, MemoryPoolManager) are modelled
from the specification, as marked on each definition.  Pointers are modelled
as byte offsets into the slab region, whose base is taken to be 0.
-/

deriving instance DecidableEq for Except

namespace Mooncake

/-- Slab size in bytes (Slab::kSize, 4 MiB per the spec and scenarios). -/
def slabSize : Nat := 4194304

/-- Minimum allocation alignment (MemoryAllocator::kAlignment, sizeof(void*)). -/
def kAlignment : Nat := 8

/-- Maximum number of pools (MemoryPoolManager::kMaxPools). -/
def kMaxPools : Nat := 128

/-- Maximum valid pool id (MemoryAllocator::kMaxPoolId). -/
def kMaxPoolId : Nat := 127

/-- Reserved sentinel for an unknown pool (spec section 6: INVALID_POOL_ID = 128+). -/
def kInvalidPoolId : Nat := 128

/-- Reserved sentinel for an unknown class (spec section 6: INVALID_CLASS_ID = 128+). -/
def kInvalidClassId : Nat := 128

/-- Error kinds surfaced by the allocator (spec section 7). -/
inductive AllocError where
  | invalidArgument
  | logicError
  | runtimeError
deriving DecidableEq

/-- Slab header: pool, class, allocation size and the two flags
(spec section 3; Slab.h is not under src/). -/
structure SlabHeader where
  poolId : Nat
  classId : Nat
  allocSize : Nat
  advised : Bool
  markedForRelease : Bool
deriving DecidableEq

/-- AllocInfo returned by pointer introspection (MemoryAllocator.h line 335). -/
structure AllocInfo where
  poolId : Nat
  classId : Nat
  allocSize : Nat
deriving DecidableEq

/-- Bookkeeping for one slab that is mid-release in a class: the allocations
still held by callers and the ones freed while the release was in flight
(spec section 4.2). -/
structure ReleaseEntry where
  live : List Nat
  freed : List Nat
deriving DecidableEq

/-- Allocation class: LIFO free list plus release state, keyed inside one pool
(spec section 3; AllocationClass.h is not under src/). -/
structure AllocClass where
  classId : Nat
  allocSize : Nat
  freeList : List Nat
  allocatedSlabs : List Nat
  releaseMap : List (Nat × ReleaseEntry)
deriving DecidableEq

/-- Memory pool: name, budget and classes ordered by ascending alloc size; the
ClassId of a class is its index (spec section 3; MemoryPool.h is not under
src/). -/
structure MemoryPool where
  name : String
  targetSize : Nat
  currentSize : Nat
  classes : List AllocClass
deriving DecidableEq

/-- Slab allocator: usable slab count, the parallel header array, and the free
slab list (spec section 4.1; SlabAllocator.h is not under src/). -/
structure SlabAllocator where
  numUsableSlabs : Nat
  headers : List SlabHeader
  freeSlabs : List Nat
deriving DecidableEq

/-- The allocator facade state: slab allocator, pool directory (PoolId is the
index), unreserved byte budget and the configured default alloc sizes
(MemoryAllocator.h lines 436-443). -/
structure MemoryAllocator where
  slabAllocator : SlabAllocator
  pools : List MemoryPool
  bytesUnreserved : Nat
  configAllocSizes : List Nat
deriving DecidableEq

/-- Modelled from the spec: SlabAllocator::getSlabHeader — compute
i = ptr / SLAB_SIZE and return the header when i < N, else a not-found
sentinel (spec section 4.1; SlabAllocator.h is not under src/). -/
def SlabAllocator.getSlabHeader (sa : SlabAllocator) (ptr : Nat) : Option SlabHeader :=
  if ptr / slabSize < sa.numUsableSlabs then sa.headers[ptr / slabSize]? else none

/-- MemoryAllocator::getMemorySize (MemoryAllocator.h lines 271-273). -/
def MemoryAllocator.getMemorySize (ma : MemoryAllocator) : Nat :=
  ma.slabAllocator.numUsableSlabs * slabSize

/-- MemoryAllocator::getAllocInfo, translated from the inline body
(MemoryAllocator.h lines 329-336): resolve the slab header and read
{poolId, classId, allocSize} from it; throw invalid_argument when no header
resolves. -/
def MemoryAllocator.getAllocInfo (ma : MemoryAllocator) (ptr : Nat) :
    Except AllocError AllocInfo :=
  match ma.slabAllocator.getSlabHeader ptr with
  | none => .error .invalidArgument
  | some h => .ok ⟨h.poolId, h.classId, h.allocSize⟩

/-- Helper for classify: index of the first class (ascending alloc size) whose
alloc size is at least the requested size. -/
def classifyGo (size : Nat) : Nat → List AllocClass → Option Nat
  | _, [] => none
  | i, ac :: rest => if size ≤ ac.allocSize then some i else classifyGo size (i + 1) rest

/-- Modelled from the spec: MemoryPool::getAllocationClassId — smallest class
whose alloc_size is at least the size; fails if the size exceeds the largest
class (spec section 4.3; MemoryPool.h is not under src/). -/
def MemoryPool.classify (pool : MemoryPool) (size : Nat) : Option Nat :=
  classifyGo size 0 pool.classes

/-- Chunk addresses carved from slab slabIdx for allocation size as:
floor(SLAB_SIZE / as) aligned allocations, waste left at the tail
(spec section 4.2). -/
def carveChunks (slabIdx as : Nat) : List Nat :=
  (List.range (slabSize / as)).map (fun k => slabIdx * slabSize + k * as)

/-- Modelled from the spec: MemoryAllocator::allocate — validate the pool id
and the size (classify), then pop the class free list, or carve a fresh slab
from the slab allocator when the pool budget allows one (setting the slab
header to pool/class/alloc size), or report exhaustion with a null result
(spec sections 4.2, 4.3, 4.5; the body behind MemoryAllocator.h lines 87-96
is not under src/).  The returned state is unchanged on error. -/
def MemoryAllocator.allocate (ma : MemoryAllocator) (pid size : Nat) :
    MemoryAllocator × Except AllocError (Option Nat) :=
  match ma.pools[pid]? with
  | none => (ma, .error .invalidArgument)
  | some pool =>
    match pool.classify size with
    | none => (ma, .error .invalidArgument)
    | some cid =>
      match pool.classes[cid]? with
      | none => (ma, .error .invalidArgument)
      | some ac =>
        match ac.freeList with
        | p :: rest =>
          let ac1 := { ac with freeList := rest }
          let pool1 := { pool with classes := pool.classes.set cid ac1 }
          ({ ma with pools := ma.pools.set pid pool1 }, .ok (some p))
        | [] =>
          if pool.currentSize + slabSize ≤ pool.targetSize then
            match ma.slabAllocator.freeSlabs with
            | [] => (ma, .ok none)
            | sIdx :: restSlabs =>
              match carveChunks sIdx ac.allocSize with
              | [] => (ma, .ok none)
              | c0 :: cs =>
                let hdr : SlabHeader := ⟨pid, cid, ac.allocSize, false, false⟩
                let sa1 : SlabAllocator :=
                  { ma.slabAllocator with
                    headers := ma.slabAllocator.headers.set sIdx hdr,
                    freeSlabs := restSlabs }
                let ac1 :=
                  { ac with
                    freeList := cs,
                    allocatedSlabs := sIdx :: ac.allocatedSlabs }
                let pool1 :=
                  { pool with
                    classes := pool.classes.set cid ac1,
                    currentSize := pool.currentSize + slabSize }
                ({ ma with slabAllocator := sa1, pools := ma.pools.set pid pool1 },
                 .ok (some c0))
          else (ma, .ok none)

/-- Modelled from the spec: MemoryAllocator::free — resolve the header (throw
invalid_argument when none resolves, leaving the state unchanged), locate the
pool and class, and push the allocation onto the class free list; an
allocation inside a slab that is mid-release is instead moved from the live
set to the freed set of the release entry of that slab (spec sections 4.2, 4.5;
the body behind MemoryAllocator.h lines 98-102 is not under src/). -/
def MemoryAllocator.free (ma : MemoryAllocator) (ptr : Nat) :
    MemoryAllocator × Except AllocError Unit :=
  match ma.slabAllocator.getSlabHeader ptr with
  | none => (ma, .error .invalidArgument)
  | some hdr =>
    match ma.pools[hdr.poolId]? with
    | none => (ma, .error .invalidArgument)
    | some pool =>
      match pool.classes[hdr.classId]? with
      | none => (ma, .error .invalidArgument)
      | some ac =>
        let slabIdx := ptr / slabSize
        match ac.releaseMap.lookup slabIdx with
        | some entry =>
          let entry1 : ReleaseEntry :=
            ⟨entry.live.filter (fun q => q ≠ ptr), ptr :: entry.freed⟩
          let ac1 := { ac with
            releaseMap := ac.releaseMap.map
              (fun e => if e.1 = slabIdx then (e.1, entry1) else e) }
          let pool1 := { pool with classes := pool.classes.set hdr.classId ac1 }
          ({ ma with pools := ma.pools.set hdr.poolId pool1 }, .ok ())
        | none =>
          let ac1 := { ac with freeList := ptr :: ac.freeList }
          let pool1 := { pool with classes := pool.classes.set hdr.classId ac1 }
          ({ ma with pools := ma.pools.set hdr.poolId pool1 }, .ok ())

/-- Modelled from the spec: MemoryPoolManager::growPool — succeed iff the
requested bytes fit in the unreserved budget, moving them from unreserved to
the pool target; throw invalid_argument on an unknown pool id (spec section
4.4; the body behind MemoryAllocator.h lines 143-145 is not under src/). -/
def MemoryAllocator.growPool (ma : MemoryAllocator) (pid bytes : Nat) :
    MemoryAllocator × Except AllocError Bool :=
  match ma.pools[pid]? with
  | none => (ma, .error .invalidArgument)
  | some pool =>
    if bytes ≤ ma.bytesUnreserved then
      ({ ma with
         pools := ma.pools.set pid { pool with targetSize := pool.targetSize + bytes },
         bytesUnreserved := ma.bytesUnreserved - bytes }, .ok true)
    else (ma, .ok false)

/-- Modelled from the spec: MemoryPoolManager::shrinkPool — succeed iff the
pool target is at least the requested bytes, moving them from the pool target
back to unreserved; throw invalid_argument on an unknown pool id (spec
section 4.4; the body behind MemoryAllocator.h lines 132-134 is not under
src/). -/
def MemoryAllocator.shrinkPool (ma : MemoryAllocator) (pid bytes : Nat) :
    MemoryAllocator × Except AllocError Bool :=
  match ma.pools[pid]? with
  | none => (ma, .error .invalidArgument)
  | some pool =>
    if bytes ≤ pool.targetSize then
      ({ ma with
         pools := ma.pools.set pid { pool with targetSize := pool.targetSize - bytes },
         bytesUnreserved := ma.bytesUnreserved + bytes }, .ok true)
    else (ma, .ok false)

/-- Modelled from the spec: MemoryPoolManager::resizePools — atomic
shrink-then-grow between two pools; succeeds iff the source target is at
least the requested bytes, leaving the unreserved budget untouched; throw
invalid_argument on an unknown pool id (spec section 4.4; the body behind
MemoryAllocator.h lines 156-158 is not under src/). -/
def MemoryAllocator.resizePools (ma : MemoryAllocator) (src dst bytes : Nat) :
    MemoryAllocator × Except AllocError Bool :=
  match ma.pools[src]? with
  | none => (ma, .error .invalidArgument)
  | some ps =>
    match ma.pools[dst]? with
    | none => (ma, .error .invalidArgument)
    | some _ =>
      if bytes ≤ ps.targetSize then
        let pools1 := ma.pools.set src { ps with targetSize := ps.targetSize - bytes }
        match pools1[dst]? with
        | none => (ma, .error .invalidArgument)
        | some pd =>
          ({ ma with
             pools := pools1.set dst { pd with targetSize := pd.targetSize + bytes } },
           .ok true)
      else (ma, .ok false)

/-- Fresh allocation classes for a list of alloc sizes (ascending), the
ClassId being the index (spec section 3). -/
def mkClasses (sizes : List Nat) : List AllocClass :=
  (List.range sizes.length).map (fun i => ⟨i, sizes.getD i 0, [], [], []⟩)

/-- Modelled from the spec: MemoryAllocator::addPool /
MemoryPoolManager::createNewPool — reject an empty name (invalid_argument), a
duplicate name (logic_error, spec section 7), a size above the unreserved
budget (invalid_argument), a full pool directory (logic_error), and, when
ensureProvisionable is set, a size below one slab per allocation class
(invalid_argument); an empty alloc-size set falls back to the configured
default.  On success append the pool under the next free PoolId and decrement
the unreserved budget (spec section 4.4; the body behind MemoryAllocator.h
lines 121-123 is not under src/). -/
def MemoryAllocator.addPool (ma : MemoryAllocator) (name : String) (size : Nat)
    (allocSizes : List Nat) (ensureProvisionable : Bool) :
    MemoryAllocator × Except AllocError Nat :=
  let sizes := if allocSizes.isEmpty then ma.configAllocSizes else allocSizes
  if name = "" then (ma, .error .invalidArgument)
  else if ma.pools.any (fun p => p.name = name) then (ma, .error .logicError)
  else if ma.bytesUnreserved < size then (ma, .error .invalidArgument)
  else if kMaxPools ≤ ma.pools.length then (ma, .error .logicError)
  else if ensureProvisionable && size < sizes.length * slabSize then
    (ma, .error .invalidArgument)
  else
    let pool : MemoryPool := ⟨name, size, 0, mkClasses sizes⟩
    ({ ma with
       pools := ma.pools ++ [pool],
       bytesUnreserved := ma.bytesUnreserved - size }, .ok ma.pools.length)

/-- Modelled from the spec: MemoryAllocator::getPoolId — name-keyed lookup
returning the kInvalidPoolId sentinel for an unknown name; declared noexcept
in src (MemoryAllocator.h line 259), so the model is a total function rather
than an Except. -/
def MemoryAllocator.getPoolId (ma : MemoryAllocator) (name : String) : Nat :=
  match ma.pools.findIdx? (fun p => p.name = name) with
  | some i => i
  | none => kInvalidPoolId

/-- Modelled from the spec: MemoryPoolManager::getPoolNameById — throws
logic_error on an unknown pool id (MemoryAllocator.h lines 261-268; the body
is not under src/). -/
def MemoryAllocator.getPoolName (ma : MemoryAllocator) (pid : Nat) :
    Except AllocError String :=
  match ma.pools[pid]? with
  | none => .error .logicError
  | some p => .ok p.name

/-- Modelled from the spec: MemoryPoolManager::getPoolById — throws
invalid_argument on an unknown pool id (MemoryAllocator.h lines 289-296; the
body is not under src/). -/
def MemoryAllocator.getPoolById (ma : MemoryAllocator) (pid : Nat) :
    Except AllocError MemoryPool :=
  match ma.pools[pid]? with
  | none => .error .invalidArgument
  | some p => .ok p

/-- Transient token created by startSlabRelease (spec section 3). -/
structure SlabReleaseContext where
  poolId : Nat
  classId : Nat
  slabIdx : Nat
  liveAllocs : List Nat
  released : Bool
deriving DecidableEq

/-- Modelled from the spec: AllocationClass::abortSlabRelease — requires a
non-released context whose slab still has live allocations (else
invalid_argument); clears the marked_for_release flag, puts the slab back in
serving rotation, pushes the allocations freed during the aborted release
onto the class free list, and drops the release entry so that only the
still-live allocations remain handed out (spec section 4.2; the body behind
MemoryAllocator.h lines 225-237 is not under src/). -/
def MemoryAllocator.abortSlabRelease (ma : MemoryAllocator)
    (ctx : SlabReleaseContext) : MemoryAllocator × Except AllocError Unit :=
  if ctx.released then (ma, .error .invalidArgument)
  else
    match ma.pools[ctx.poolId]? with
    | none => (ma, .error .invalidArgument)
    | some pool =>
      match pool.classes[ctx.classId]? with
      | none => (ma, .error .invalidArgument)
      | some ac =>
        match ac.releaseMap.lookup ctx.slabIdx with
        | none => (ma, .error .runtimeError)
        | some entry =>
          if entry.live.isEmpty then (ma, .error .invalidArgument)
          else
            match ma.slabAllocator.headers[ctx.slabIdx]? with
            | none => (ma, .error .runtimeError)
            | some hdr =>
              let ac1 :=
                { ac with
                  freeList := entry.freed ++ ac.freeList,
                  allocatedSlabs := ctx.slabIdx :: ac.allocatedSlabs,
                  releaseMap := ac.releaseMap.filter (fun e => e.1 ≠ ctx.slabIdx) }
              let pool1 := { pool with classes := pool.classes.set ctx.classId ac1 }
              let sa1 :=
                { ma.slabAllocator with
                  headers := ma.slabAllocator.headers.set ctx.slabIdx
                    { hdr with markedForRelease := false } }
              ({ ma with
                 slabAllocator := sa1,
                 pools := ma.pools.set ctx.poolId pool1 }, .ok ())

/-- Decision returned by the traversal callback for each chunk: continue,
skip the current slab, or abort the whole iteration (spec section 4.5). -/
inductive TraversalDecision where
  | go
  | skipSlab
  | abortAll
deriving DecidableEq

/-- Per-slab iteration status consumed by MemoryAllocator::forEachAllocation
(MemoryAllocator.h lines 394-402; SlabIterationStatus itself is declared
outside src/). -/
inductive SlabIterationStatus where
  | kFinishedCurrentSlabAndContinue
  | kSkippedCurrentSlabAndContinue
  | kAbortIteration
deriving DecidableEq

/-- Run the callback across the chunks of one slab, stopping at the first
skip or abort request; returns the status and the chunks the callback was
invoked on. -/
def chunkLoop (cb : Nat → TraversalDecision) : List Nat → SlabIterationStatus × List Nat
  | [] => (.kFinishedCurrentSlabAndContinue, [])
  | c :: cs =>
    match cb c with
    | .go =>
      let r := chunkLoop cb cs
      (r.1, c :: r.2)
    | .skipSlab => (.kSkippedCurrentSlabAndContinue, [c])
    | .abortAll => (.kAbortIteration, [c])

/-- Modelled from the spec: MemoryPool::forEachAllocation — invoke the
callback on every chunk of the slab, allocated or free; the callback may
request abort or skip-current (spec section 4.5; MemoryPool.h is not under
src/). -/
def poolForEachAllocation (ac : AllocClass) (slabIdx : Nat)
    (cb : Nat → TraversalDecision) : SlabIterationStatus × List Nat :=
  chunkLoop cb (carveChunks slabIdx ac.allocSize)

/-- MemoryAllocator::forEachAllocation loop, translated from the inline body
(MemoryAllocator.h lines 375-405) and instrumented to also return the chunks
the callback was invoked on: a slab whose header does not resolve is passed
over without counting; an unassigned, advised or marked slab is counted as
skipped; otherwise the pool runs the callback over the slab, a skip-current
outcome is counted, and an abort outcome returns the count accumulated so
far.  Pool or class lookup failures surface as invalid_argument. -/
def MemoryAllocator.feaGo (ma : MemoryAllocator) (cb : Nat → TraversalDecision) :
    List Nat → Except AllocError (Nat × List Nat)
  | [] => .ok (0, [])
  | idx :: rest =>
    match ma.slabAllocator.getSlabHeader (idx * slabSize) with
    | none => MemoryAllocator.feaGo ma cb rest
    | some hdr =>
      if hdr.poolId = kInvalidPoolId ∨ hdr.classId = kInvalidClassId ∨
         hdr.advised = true ∨ hdr.markedForRelease = true then
        (MemoryAllocator.feaGo ma cb rest).map (fun r => (r.1 + 1, r.2))
      else
        match ma.pools[hdr.poolId]? with
        | none => .error .invalidArgument
        | some pool =>
          match pool.classes[hdr.classId]? with
          | none => .error .invalidArgument
          | some ac =>
            match poolForEachAllocation ac idx cb with
            | (.kAbortIteration, v) => .ok (0, v)
            | (.kSkippedCurrentSlabAndContinue, v) =>
              (MemoryAllocator.feaGo ma cb rest).map (fun r => (r.1 + 1, v ++ r.2))
            | (.kFinishedCurrentSlabAndContinue, v) =>
              (MemoryAllocator.feaGo ma cb rest).map (fun r => (r.1, v ++ r.2))

/-- MemoryAllocator::forEachAllocation over all usable slabs
(MemoryAllocator.h lines 375-405). -/
def MemoryAllocator.forEachAllocation (ma : MemoryAllocator)
    (cb : Nat → TraversalDecision) : Except AllocError (Nat × List Nat) :=
  MemoryAllocator.feaGo ma cb (List.range ma.slabAllocator.numUsableSlabs)

/-- Round n up to a multiple of a. -/
def alignUp (n a : Nat) : Nat := ((n + a - 1) / a) * a

/-- Next size in the generator sequence: multiply by the factor (an exact
rational, computed as the ceiling of size * num / den) and round up to the
alignment (spec section 4.3). -/
def clNext (factor : ℚ) (size : Nat) : Nat :=
  alignUp ((size * factor.num.toNat + factor.den - 1) / factor.den) kAlignment

/-- Largest size preserving floor(SLAB_SIZE / size) chunks per slab
(spec section 4.3, reduce_fragmentation snapping). -/
def snapSize (size : Nat) : Nat := slabSize / (slabSize / size)

/-- Size actually inserted at each step: the snapped size when
reduce_fragmentation is on, the raw size otherwise. -/
def insVal (rf : Bool) (size : Nat) : Nat := if rf then snapSize size else size

/-- Generator loop: emit sizes while they do not exceed maxSize, failing when
reduce_fragmentation yields no growth between consecutive inserted sizes.
The fuel only bounds the recursion; it never runs out for a positive start
size (proved below). -/
def genLoop (factor : ℚ) (maxSize : Nat) (rf : Bool) :
    Nat → Nat → Except AllocError (List Nat)
  | 0, size => if maxSize < size then .ok [] else .error .invalidArgument
  | fuel + 1, size =>
    if maxSize < size then .ok []
    else
      let nxt := clNext factor size
      if rf = true ∧ nxt ≤ maxSize ∧ insVal rf nxt = insVal rf size then
        .error .invalidArgument
      else
        (genLoop factor maxSize rf fuel nxt).map
          (fun rest => insVal rf size :: rest)

/-- Whether the reduce_fragmentation snapping produces two consecutive equal
inserted (snapped) sizes somewhere in the generator sequence — the no-growth
failure of spec section 4.3. -/
def fragCollision (factor : ℚ) (maxSize : Nat) : Nat → Nat → Bool
  | 0, _ => false
  | fuel + 1, size =>
    if maxSize < size then false
    else
      let nxt := clNext factor size
      if nxt ≤ maxSize ∧ snapSize nxt = snapSize size then true
      else fragCollision factor maxSize fuel nxt

/-- Whether a generator run failed. -/
def isErr : Except AllocError (List Nat) → Bool
  | .error _ => true
  | .ok _ => false

/-- Modelled from the spec: MemoryAllocator::generateAllocSizes — reject a
max size above the slab size or a factor at most 1.0, then start at minSize
and repeatedly multiply by the factor (rounded up to the alignment) until
exceeding maxSize, snapping each emitted size to the chunks-per-slab boundary
when reduce_fragmentation is set and failing when that snapping yields no
growth between consecutive steps (spec section 4.3; the body behind
MemoryAllocator.h lines 424-426 is not under src/). -/
def generateAllocSizes (factor : ℚ) (maxSize minSize : Nat)
    (reduceFragmentation : Bool) : Except AllocError (List Nat) :=
  if slabSize < maxSize then .error .invalidArgument
  else if factor ≤ 1 then .error .invalidArgument
  else genLoop factor maxSize reduceFragmentation (maxSize + 1) minSize

/-- Executable well-formedness of the slab allocator: the header array covers
the usable slabs and free slab indices are in range. -/
def SlabAllocator.wfB (sa : SlabAllocator) : Bool :=
  (sa.headers.length == sa.numUsableSlabs) &&
  sa.freeSlabs.all (fun i => decide (i < sa.numUsableSlabs))

/-- Executable well-formedness of one allocation class within its pool: the
stored ClassId is its index, the alloc size is positive and at most one slab,
and every free-list pointer resolves to a header naming exactly this pool,
class and alloc size. -/
def AllocClass.wfInB (sa : SlabAllocator) (pid cid : Nat) (ac : AllocClass) : Bool :=
  (ac.classId == cid) && decide (0 < ac.allocSize) && decide (ac.allocSize ≤ slabSize) &&
  ac.freeList.all (fun p =>
    match sa.getSlabHeader p with
    | some h => (h.poolId == pid) && (h.classId == cid) && (h.allocSize == ac.allocSize)
    | none => false)

/-- Executable well-formedness of the whole allocator state. -/
def MemoryAllocator.wfB (ma : MemoryAllocator) : Bool :=
  ma.slabAllocator.wfB &&
  (List.range ma.pools.length).all (fun pid =>
    match ma.pools[pid]? with
    | none => false
    | some pool =>
      (List.range pool.classes.length).all (fun cid =>
        match pool.classes[cid]? with
        | none => false
        | some ac => ac.wfInB ma.slabAllocator pid cid))

/-- Whether the traversal counts usable slab idx as skipped: its header
resolves and is unassigned, advised or marked for release, or the callback
requests skip-current on one of its chunks (MemoryAllocator.h lines
385-398). -/
def slabSkipB (ma : MemoryAllocator) (cb : Nat → TraversalDecision)
    (idx : Nat) : Bool :=
  match ma.slabAllocator.getSlabHeader (idx * slabSize) with
  | none => false
  | some hdr =>
    if hdr.poolId = kInvalidPoolId ∨ hdr.classId = kInvalidClassId ∨
       hdr.advised = true ∨ hdr.markedForRelease = true then true
    else
      match ma.pools[hdr.poolId]? with
      | none => false
      | some pool =>
        match pool.classes[hdr.classId]? with
        | none => false
        | some ac =>
          decide ((poolForEachAllocation ac idx cb).1 =
            .kSkippedCurrentSlabAndContinue)

/-- Concrete two-slab state for the C3 counterexample and witness: both
usable slabs are assigned to pool 0, class 0, with one slab-sized chunk
each. -/
def cexMA : MemoryAllocator :=
  ⟨⟨2, [⟨0, 0, slabSize, false, false⟩, ⟨0, 0, slabSize, false, false⟩], []⟩,
   [⟨"A", 8388608, 8388608, [⟨0, slabSize, [], [0, 1], []⟩]⟩], 0, []⟩

/-- Sum of all pool target sizes (spec section 3 invariant). -/
def sumTargets (ma : MemoryAllocator) : Nat :=
  (ma.pools.map MemoryPool.targetSize).sum

/-- Concrete two-pool manager state used by witnesses: four unassigned usable
slabs, pools "A" (8 MiB target) and "B" (4 MiB target), 4 MiB unreserved. -/
def mgrMA : MemoryAllocator :=
  ⟨⟨4, [⟨128, 128, 0, false, false⟩, ⟨128, 128, 0, false, false⟩,
        ⟨128, 128, 0, false, false⟩, ⟨128, 128, 0, false, false⟩], [0, 1, 2, 3]⟩,
   [⟨"A", 8388608, 0, []⟩, ⟨"B", 4194304, 0, []⟩], 4194304, []⟩

/-- Concrete mid-release state for the abort witness: one slab of a 2 MiB
class under release, with one chunk still live and one freed during the
release. -/
def releaseMA : MemoryAllocator :=
  ⟨⟨1, [⟨0, 0, 2097152, false, true⟩], []⟩,
   [⟨"A", 8388608, 4194304, [⟨0, 2097152, [], [], [(0, ⟨[0], [2097152]⟩)]⟩]⟩],
   0, []⟩

/-- The release context matching releaseMA. -/
def releaseCtx : SlabReleaseContext := ⟨0, 0, 0, [0], false⟩

/-- Concrete one-slab state used by witnesses: one pool "A" with a single
64-byte class holding one slab whose first chunk is on the free list. -/
def witnessMA : MemoryAllocator :=
  ⟨⟨1, [⟨0, 0, 64, false, false⟩], []⟩,
   [⟨"A", 8388608, 4194304, [⟨0, 64, [0], [0], []⟩]⟩], 0, []⟩

theorem sum_map_set {α : Type} (f : α → Nat) :
    ∀ (l : List α) (i : Nat) (a b : α), l[i]? = some a →
      ((l.set i b).map f).sum + f a = (l.map f).sum + f b
  | [], i, a, b, h => by simp at h
  | x :: xs, 0, a, b, h => by
    simp only [List.getElem?_cons_zero, Option.some.injEq] at h
    subst h
    simp only [List.set_cons_zero, List.map_cons, List.sum_cons]
    omega
  | x :: xs, i + 1, a, b, h => by
    simp only [List.getElem?_cons_succ] at h
    have ih := sum_map_set f xs i a b h
    simp only [List.set_cons_succ, List.map_cons, List.sum_cons]
    omega

theorem classifyGo_none (size : Nat) :
    ∀ (i : Nat) (cs : List AllocClass),
      classifyGo size i cs = none ↔ ∀ ac ∈ cs, ac.allocSize < size
  | i, [] => by simp [classifyGo]
  | i, ac :: rest => by
    simp only [classifyGo]
    by_cases h : size ≤ ac.allocSize
    · simp only [h, if_true]
      constructor
      · intro hc; exact absurd hc (by simp)
      · intro hall
        have := hall ac (List.mem_cons_self ac rest)
        omega
    · simp only [h, if_false, classifyGo_none size (i + 1) rest]
      constructor
      · intro hall
        intro ac2 hac2
        rcases List.mem_cons.mp hac2 with h1 | h1
        · subst h1; omega
        · exact hall ac2 h1
      · intro hall ac2 hac2
        exact hall ac2 (List.mem_cons_of_mem ac hac2)

theorem classifyGo_some (size : Nat) :
    ∀ (cs : List AllocClass) (i j : Nat), classifyGo size i cs = some j →
      i ≤ j ∧ ∃ ac, cs[j - i]? = some ac ∧ size ≤ ac.allocSize
  | [], i, j, h => by simp [classifyGo] at h
  | ac :: rest, i, j, h => by
    simp only [classifyGo] at h
    by_cases hle : size ≤ ac.allocSize
    · rw [if_pos hle] at h
      have hji : i = j := Option.some_inj.mp h
      subst hji
      refine ⟨Nat.le_refl _, ac, ?_, hle⟩
      simp
    · rw [if_neg hle] at h
      have ih := classifyGo_some size rest (i + 1) j h
      rcases ih with ⟨hij, ac2, hget, hle2⟩
      refine ⟨by omega, ac2, ?_, hle2⟩
      have hd : j - i = (j - (i + 1)) + 1 := by omega
      rw [hd]
      simpa using hget

theorem carveChunks_head (s a c : Nat) (cs : List Nat)
    (h : carveChunks s a = c :: cs) : c = s * slabSize := by
  unfold carveChunks at h
  cases hn : slabSize / a with
  | zero => rw [hn] at h; simp at h
  | succ n =>
    rw [hn, List.range_succ_eq_map] at h
    simp only [List.map_cons, Nat.zero_mul, Nat.add_zero] at h
    injection h with h1 h2
    exact h1.symm

theorem carveChunks_mem (s a c : Nat) (h : c ∈ carveChunks s a) :
    ∃ k, k < slabSize / a ∧ c = s * slabSize + k * a := by
  unfold carveChunks at h
  rcases List.mem_map.mp h with ⟨k, hk, hc⟩
  exact ⟨k, List.mem_range.mp hk, hc.symm⟩

theorem wfB_slab {ma : MemoryAllocator} (h : ma.wfB = true) :
    ma.slabAllocator.headers.length = ma.slabAllocator.numUsableSlabs ∧
    ∀ i ∈ ma.slabAllocator.freeSlabs, i < ma.slabAllocator.numUsableSlabs := by
  simp only [MemoryAllocator.wfB, SlabAllocator.wfB, Bool.and_eq_true,
    List.all_eq_true, beq_iff_eq, decide_eq_true_eq] at h
  exact ⟨h.1.1, h.1.2⟩

theorem wfB_class {ma : MemoryAllocator} {pid cid : Nat} {pool : MemoryPool}
    {ac : AllocClass} (h : ma.wfB = true)
    (hpool : ma.pools[pid]? = some pool) (hac : pool.classes[cid]? = some ac) :
    ac.wfInB ma.slabAllocator pid cid = true := by
  have hpid : pid < ma.pools.length := (List.getElem?_eq_some.mp hpool).1
  have hcid : cid < pool.classes.length := (List.getElem?_eq_some.mp hac).1
  simp only [MemoryAllocator.wfB, Bool.and_eq_true, List.all_eq_true] at h
  have h2 := h.2 pid (List.mem_range.mpr hpid)
  rw [hpool] at h2
  simp only [List.all_eq_true] at h2
  have h3 := h2 cid (List.mem_range.mpr hcid)
  rw [hac] at h3
  exact h3

theorem wfInB_basics {sa : SlabAllocator} {pid cid : Nat} {ac : AllocClass}
    (h : ac.wfInB sa pid cid = true) :
    ac.classId = cid ∧ 0 < ac.allocSize ∧ ac.allocSize ≤ slabSize := by
  simp only [AllocClass.wfInB, Bool.and_eq_true, beq_iff_eq,
    decide_eq_true_eq] at h
  exact ⟨h.1.1.1, h.1.1.2, h.1.2⟩

theorem wfInB_header {sa : SlabAllocator} {pid cid : Nat} {ac : AllocClass}
    {p : Nat} (h : ac.wfInB sa pid cid = true) (hp : p ∈ ac.freeList) :
    ∃ hd, sa.getSlabHeader p = some hd ∧
      hd.poolId = pid ∧ hd.classId = cid ∧ hd.allocSize = ac.allocSize := by
  simp only [AllocClass.wfInB, Bool.and_eq_true, List.all_eq_true] at h
  have h2 := h.2 p hp
  cases hh : sa.getSlabHeader p with
  | none => rw [hh] at h2; simp at h2
  | some hd =>
    rw [hh] at h2
    simp only [Bool.and_eq_true, beq_iff_eq] at h2
    exact ⟨hd, rfl, h2.1.1, h2.1.2, h2.2⟩

/-- Claim C1: every pointer returned by allocate(pid, size) introspects, via
getAllocInfo, to exactly the pool id, the class chosen by classify (the
smallest class whose alloc size is at least the requested size), and that
alloc size of that class. -/
theorem allocate_getAllocInfo (ma : MemoryAllocator) (pid size : Nat)
    (ma2 : MemoryAllocator) (p : Nat) (hwf : ma.wfB = true)
    (h : ma.allocate pid size = (ma2, .ok (some p))) :
    ∃ pool cid ac, ma.pools[pid]? = some pool ∧ pool.classify size = some cid ∧
      pool.classes[cid]? = some ac ∧
      ma2.getAllocInfo p = .ok ⟨pid, cid, ac.allocSize⟩ := by
  cases hpool : ma.pools[pid]? with
  | none => simp [MemoryAllocator.allocate, hpool] at h
  | some pool =>
  cases hcls : pool.classify size with
  | none => simp [MemoryAllocator.allocate, hpool, hcls] at h
  | some cid =>
  cases hac : pool.classes[cid]? with
  | none => simp [MemoryAllocator.allocate, hpool, hcls, hac] at h
  | some ac =>
  refine ⟨pool, cid, ac, rfl, hcls, hac, ?_⟩
  have hwfc := wfB_class hwf hpool hac
  cases hfl : ac.freeList with
  | cons p0 rest =>
    simp only [MemoryAllocator.allocate, hpool, hcls, hac, hfl] at h
    simp only [Prod.mk.injEq, Except.ok.injEq, Option.some.injEq] at h
    rcases h with ⟨hma2, hp0⟩
    rcases wfInB_header hwfc (by rw [hfl]; exact List.mem_cons_self p0 rest) with
      ⟨hd, hhd, hpid, hcid, hsz⟩
    have hsa : ma2.slabAllocator = ma.slabAllocator := by rw [← hma2]
    rw [← hp0]
    simp [MemoryAllocator.getAllocInfo, hsa, hhd, hpid, hcid, hsz]
  | nil =>
    simp only [MemoryAllocator.allocate, hpool, hcls, hac, hfl] at h
    by_cases hbud : pool.currentSize + slabSize ≤ pool.targetSize
    · rw [if_pos hbud] at h
      cases hfs : ma.slabAllocator.freeSlabs with
      | nil => simp [hfs] at h
      | cons sIdx restSlabs =>
        simp only [hfs] at h
        cases hcv : carveChunks sIdx ac.allocSize with
        | nil => simp [hcv] at h
        | cons c0 cs =>
          simp only [hcv] at h
          simp only [Prod.mk.injEq, Except.ok.injEq, Option.some.injEq] at h
          rcases h with ⟨hma2, hc0⟩
          have hc0v : c0 = sIdx * slabSize := carveChunks_head sIdx ac.allocSize c0 cs hcv
          rcases wfB_slab hwf with ⟨hlen, hfree⟩
          have hsIdx : sIdx < ma.slabAllocator.numUsableSlabs :=
            hfree sIdx (by rw [hfs]; exact List.mem_cons_self sIdx restSlabs)
          have hsaN : ma2.slabAllocator.numUsableSlabs =
              ma.slabAllocator.numUsableSlabs := by rw [← hma2]
          have hsaH : ma2.slabAllocator.headers = ma.slabAllocator.headers.set sIdx
              ⟨pid, cid, ac.allocSize, false, false⟩ := by rw [← hma2]
          have hdiv : c0 / slabSize = sIdx := by
            rw [hc0v]; exact Nat.mul_div_cancel sIdx (by decide)
          have hgh : ma2.slabAllocator.getSlabHeader c0 =
              some ⟨pid, cid, ac.allocSize, false, false⟩ := by
            rw [SlabAllocator.getSlabHeader, hdiv, hsaN, hsaH, if_pos hsIdx]
            exact List.getElem?_set_eq_of_lt _ (by rw [hlen]; exact hsIdx)
          rw [← hc0]
          simp [MemoryAllocator.getAllocInfo, hgh]
    · rw [if_neg hbud] at h; simp at h

/-- Witness for C1 at a concrete one-pool, one-class state with one free
allocation. -/
theorem allocate_getAllocInfo_witness :
    ∃ ma2 p, (witnessMA.allocate 0 10 = (ma2, .ok (some p))) ∧
      ∃ pool cid ac, witnessMA.pools[0]? = some pool ∧
        pool.classify 10 = some cid ∧ pool.classes[cid]? = some ac ∧
        ma2.getAllocInfo p = .ok ⟨0, cid, ac.allocSize⟩ := by
  refine ⟨(witnessMA.allocate 0 10).1, 0, by decide, ?_⟩
  exact allocate_getAllocInfo witnessMA 0 10 (witnessMA.allocate 0 10).1 0
    (by decide) (by decide)

/-- Claim C2: allocate signals memory exhaustion by returning a null result,
never by throwing; it throws invalid_argument exactly when the pool id is
invalid or the size is invalid (it exceeds the largest class of the pool), and on
a throw the state is unchanged. -/
theorem allocate_error_characterization (ma : MemoryAllocator) (pid size : Nat) :
    ((ma.allocate pid size).2 = .error .invalidArgument ↔
      (ma.pools[pid]? = none ∨
        ∃ pool, ma.pools[pid]? = some pool ∧
          ∀ ac ∈ pool.classes, ac.allocSize < size)) ∧
    (∀ e, (ma.allocate pid size).2 = .error e →
      e = .invalidArgument ∧ (ma.allocate pid size).1 = ma) := by
  cases hpool : ma.pools[pid]? with
  | none =>
    have hres : ma.allocate pid size = (ma, .error .invalidArgument) := by
      simp only [MemoryAllocator.allocate, hpool]
    rw [hres]
    refine ⟨⟨fun _ => Or.inl rfl, fun _ => rfl⟩, ?_⟩
    intro e he
    injection he with he1
    exact ⟨he1.symm, rfl⟩
  | some pool =>
  cases hcls : pool.classify size with
  | none =>
    have hres : ma.allocate pid size = (ma, .error .invalidArgument) := by
      simp only [MemoryAllocator.allocate, hpool, hcls]
    rw [hres]
    have hall : ∀ ac ∈ pool.classes, ac.allocSize < size :=
      (classifyGo_none size 0 pool.classes).mp hcls
    refine ⟨⟨fun _ => Or.inr ⟨pool, rfl, hall⟩, fun _ => rfl⟩, ?_⟩
    intro e he
    injection he with he1
    exact ⟨he1.symm, rfl⟩
  | some cid =>
    rcases classifyGo_some size pool.classes 0 cid hcls with ⟨-, ac, hac0, hle⟩
    have hac : pool.classes[cid]? = some ac := by simpa using hac0
    have hacmem : ac ∈ pool.classes := List.getElem?_mem hac
    have hsnd : ∃ s r, ma.allocate pid size = (s, .ok r) := by
      simp only [MemoryAllocator.allocate, hpool, hcls, hac]
      split
      · exact ⟨_, _, rfl⟩
      · split
        · split
          · exact ⟨_, _, rfl⟩
          · split
            · exact ⟨_, _, rfl⟩
            · exact ⟨_, _, rfl⟩
        · exact ⟨_, _, rfl⟩
    rcases hsnd with ⟨s, r, hr⟩
    rw [hr]
    constructor
    · constructor
      · intro hbad; simp at hbad
      · rintro (h1 | ⟨pool2, hp2, hall⟩)
        · exact absurd h1 (by simp)
        · have hpp : pool = pool2 := Option.some_inj.mp hp2
          have := hall ac (hpp ▸ hacmem)
          omega
    · intro e he; simp at he

/-- Witness for C2: an invalid pool id on the concrete witness state throws
invalid_argument and leaves the state unchanged. -/
theorem allocate_error_characterization_witness :
    (witnessMA.allocate 5 10).2 = .error .invalidArgument ∧
    (witnessMA.allocate 5 10).1 = witnessMA := by
  have h := allocate_error_characterization witnessMA 5 10
  have he : (witnessMA.allocate 5 10).2 = .error .invalidArgument :=
    h.1.mpr (Or.inl (by decide))
  exact ⟨he, (h.2 _ he).2⟩

/-- Claim C4: the sum of pool targets plus the unreserved budget equals the
total usable bytes after every growPool, shrinkPool and resizePools call,
whether the call succeeds or fails. -/
theorem budget_invariant_preserved (ma : MemoryAllocator)
    (pid src dst bytes : Nat)
    (hinv : sumTargets ma + ma.bytesUnreserved = ma.getMemorySize) :
    (sumTargets (ma.growPool pid bytes).1 + (ma.growPool pid bytes).1.bytesUnreserved =
      (ma.growPool pid bytes).1.getMemorySize) ∧
    (sumTargets (ma.shrinkPool pid bytes).1 + (ma.shrinkPool pid bytes).1.bytesUnreserved =
      (ma.shrinkPool pid bytes).1.getMemorySize) ∧
    (sumTargets (ma.resizePools src dst bytes).1 +
        (ma.resizePools src dst bytes).1.bytesUnreserved =
      (ma.resizePools src dst bytes).1.getMemorySize) := by
  refine ⟨?_, ?_, ?_⟩
  · cases hpool : ma.pools[pid]? with
    | none => simp only [MemoryAllocator.growPool, hpool]; exact hinv
    | some pool =>
      simp only [MemoryAllocator.growPool, hpool]
      by_cases hb : bytes ≤ ma.bytesUnreserved
      · rw [if_pos hb]
        have hs := sum_map_set MemoryPool.targetSize ma.pools pid pool
          { pool with targetSize := pool.targetSize + bytes } hpool
        simp only [sumTargets, MemoryAllocator.getMemorySize] at hinv ⊢
        dsimp only at hs ⊢
        omega
      · rw [if_neg hb]; exact hinv
  · cases hpool : ma.pools[pid]? with
    | none => simp only [MemoryAllocator.shrinkPool, hpool]; exact hinv
    | some pool =>
      simp only [MemoryAllocator.shrinkPool, hpool]
      by_cases hb : bytes ≤ pool.targetSize
      · rw [if_pos hb]
        have hs := sum_map_set MemoryPool.targetSize ma.pools pid pool
          { pool with targetSize := pool.targetSize - bytes } hpool
        simp only [sumTargets, MemoryAllocator.getMemorySize] at hinv ⊢
        dsimp only at hs ⊢
        omega
      · rw [if_neg hb]; exact hinv
  · cases hsrc : ma.pools[src]? with
    | none => simp only [MemoryAllocator.resizePools, hsrc]; exact hinv
    | some ps =>
      cases hdst : ma.pools[dst]? with
      | none => simp only [MemoryAllocator.resizePools, hsrc, hdst]; exact hinv
      | some pd0 =>
        simp only [MemoryAllocator.resizePools, hsrc, hdst]
        by_cases hb : bytes ≤ ps.targetSize
        · rw [if_pos hb]
          cases hdst1 : (ma.pools.set src
              { ps with targetSize := ps.targetSize - bytes })[dst]? with
          | none => exact hinv
          | some pd =>
            have hs1 := sum_map_set MemoryPool.targetSize ma.pools src ps
              { ps with targetSize := ps.targetSize - bytes } hsrc
            have hs2 := sum_map_set MemoryPool.targetSize
              (ma.pools.set src { ps with targetSize := ps.targetSize - bytes })
              dst pd { pd with targetSize := pd.targetSize + bytes } hdst1
            simp only [sumTargets, MemoryAllocator.getMemorySize] at hinv ⊢
            dsimp only at hs1 hs2 ⊢
            omega
        · rw [if_neg hb]; exact hinv

/-- Witness for C4 on the concrete two-pool manager state. -/
theorem budget_invariant_preserved_witness :
    sumTargets (mgrMA.growPool 0 1048576).1 +
        (mgrMA.growPool 0 1048576).1.bytesUnreserved =
      (mgrMA.growPool 0 1048576).1.getMemorySize := by
  exact (budget_invariant_preserved mgrMA 0 1 0 1048576 (by decide)).1

/-- Claim C5: resizePools with valid pool ids succeeds exactly when the
source target is at least the requested bytes; on success the source target
drops by the bytes, the destination target rises by the bytes and the
unreserved budget is untouched; on failure the state is unchanged. -/
theorem resizePools_spec (ma : MemoryAllocator) (src dst bytes : Nat)
    (ps pd : MemoryPool) (hs : ma.pools[src]? = some ps)
    (hd : ma.pools[dst]? = some pd) (hne : src ≠ dst) :
    ((ma.resizePools src dst bytes).2 = .ok true ↔ bytes ≤ ps.targetSize) ∧
    (bytes ≤ ps.targetSize →
      ∃ ps2 pd2, (ma.resizePools src dst bytes).1.pools[src]? = some ps2 ∧
        (ma.resizePools src dst bytes).1.pools[dst]? = some pd2 ∧
        ps2.targetSize = ps.targetSize - bytes ∧
        pd2.targetSize = pd.targetSize + bytes ∧
        (ma.resizePools src dst bytes).1.bytesUnreserved = ma.bytesUnreserved) ∧
    (¬ bytes ≤ ps.targetSize → ma.resizePools src dst bytes = (ma, .ok false)) := by
  have hsrcLt : src < ma.pools.length := (List.getElem?_eq_some.mp hs).1
  have hdstLt : dst < ma.pools.length := (List.getElem?_eq_some.mp hd).1
  by_cases hb : bytes ≤ ps.targetSize
  · have hdst1 : (ma.pools.set src
        { ps with targetSize := ps.targetSize - bytes })[dst]? = some pd := by
      rw [List.getElem?_set_ne hne]
      exact hd
    have hres : ma.resizePools src dst bytes =
        ({ ma with pools := (ma.pools.set src { ps with targetSize := ps.targetSize - bytes }).set dst { pd with targetSize := pd.targetSize + bytes } }, .ok true) := by
      simp only [MemoryAllocator.resizePools, hs, hd]
      rw [if_pos hb]
      simp only [hdst1]
    rw [hres]
    refine ⟨⟨fun _ => hb, fun _ => rfl⟩, ?_, ?_⟩
    · intro _
      refine ⟨{ ps with targetSize := ps.targetSize - bytes },
        { pd with targetSize := pd.targetSize + bytes }, ?_, ?_, rfl, rfl, rfl⟩
      · show ((ma.pools.set src { ps with targetSize := ps.targetSize - bytes }).set
          dst { pd with targetSize := pd.targetSize + bytes })[src]? = _
        rw [List.getElem?_set_ne (Ne.symm hne),
          List.getElem?_set_eq_of_lt _ hsrcLt]
      · show ((ma.pools.set src { ps with targetSize := ps.targetSize - bytes }).set
          dst { pd with targetSize := pd.targetSize + bytes })[dst]? = _
        rw [List.getElem?_set_eq_of_lt _ (by rw [List.length_set]; exact hdstLt)]
    · intro hcon; exact absurd hb hcon
  · have hres : ma.resizePools src dst bytes = (ma, .ok false) := by
      simp only [MemoryAllocator.resizePools, hs, hd]
      rw [if_neg hb]
    rw [hres]
    refine ⟨⟨fun hbad => ?_, fun hcon => absurd hcon hb⟩, ?_, fun _ => rfl⟩
    · simp at hbad
    · intro hcon; exact absurd hcon hb

/-- Witness for C5 on the concrete two-pool manager state, moving 4 MiB from
pool B to pool A. -/
theorem resizePools_spec_witness :
    (mgrMA.resizePools 1 0 4194304).2 = .ok true := by
  exact (resizePools_spec mgrMA 1 0 4194304 ⟨"B", 4194304, 0, []⟩
    ⟨"A", 8388608, 0, []⟩ (by decide) (by decide) (by decide)).1.mpr (by decide)

theorem lookup_filter_ne (k : Nat) :
    ∀ (l : List (Nat × ReleaseEntry)),
      (l.filter (fun e => e.1 ≠ k)).lookup k = none
  | [] => rfl
  | e :: rest => by
    by_cases he : e.1 = k
    · have : (decide (e.1 ≠ k)) = false := by simp [he]
      simp only [List.filter_cons, this, if_false, Bool.false_eq_true]
      exact lookup_filter_ne k rest
    · have : (decide (e.1 ≠ k)) = true := by simp [he]
      simp only [List.filter_cons, this, if_true]
      rw [List.lookup_cons]
      have hbeq : (k == e.1) = false := by
        simp [Ne.symm he]
      rw [hbeq]
      exact lookup_filter_ne k rest

/-- Claim C8: a pointer for which no slab header resolves is rejected by both
free and getAllocInfo with invalid_argument, and free leaves the allocator
state unchanged. -/
theorem unknown_pointer_rejected (ma : MemoryAllocator) (ptr : Nat)
    (h : ma.slabAllocator.getSlabHeader ptr = none) :
    ma.getAllocInfo ptr = .error .invalidArgument ∧
    ma.free ptr = (ma, .error .invalidArgument) := by
  constructor
  · simp only [MemoryAllocator.getAllocInfo, h]
  · simp only [MemoryAllocator.free, h]

/-- Witness for C8: a pointer beyond the single usable slab of the witness
state. -/
theorem unknown_pointer_rejected_witness :
    witnessMA.getAllocInfo 99999999 = .error .invalidArgument ∧
    witnessMA.free 99999999 = (witnessMA, .error .invalidArgument) :=
  unknown_pointer_rejected witnessMA 99999999 (by decide)

/-- Claim C10: getPoolId returns the kInvalidPoolId sentinel for every
unregistered pool name — as a total function it never throws, being declared
noexcept — in contrast to the id-keyed lookups, which throw on an invalid
pool id (getPoolName with logic_error, getPoolById with invalid_argument). -/
theorem getPoolId_unknown_name (ma : MemoryAllocator) (name : String)
    (h : ∀ p ∈ ma.pools, p.name ≠ name) :
    ma.getPoolId name = kInvalidPoolId ∧
    (∀ pid, ma.pools[pid]? = none →
      ma.getPoolName pid = .error .logicError ∧
      ma.getPoolById pid = .error .invalidArgument) := by
  constructor
  · have hidx : ma.pools.findIdx? (fun p => p.name = name) = none := by
      rw [List.findIdx?_eq_none_iff]
      intro p hp
      simp [h p hp]
    simp only [MemoryAllocator.getPoolId, hidx]
  · intro pid hnone
    constructor
    · simp only [MemoryAllocator.getPoolName, hnone]
    · simp only [MemoryAllocator.getPoolById, hnone]

/-- Witness for C10: an unknown name and an out-of-range pool id on the
witness state. -/
theorem getPoolId_unknown_name_witness :
    witnessMA.getPoolId "Z" = kInvalidPoolId ∧
    witnessMA.getPoolName 3 = .error .logicError ∧
    witnessMA.getPoolById 3 = .error .invalidArgument := by
  have h := getPoolId_unknown_name witnessMA "Z" (by decide)
  exact ⟨h.1, h.2 3 (by decide)⟩

/-- Claim C9: abortSlabRelease requires a still-live, not-yet-released
context — it throws invalid_argument when the context is released or all the
allocations of the slab are free — and on success it clears marked_for_release,
puts the slab back in serving rotation (back among the allocated slabs, with
its release entry dropped), pushes exactly the allocations freed during the
aborted release onto the class free list, and does not restore the
still-live allocations (they stay handed out, off the free list). -/
theorem abortSlabRelease_spec (ma : MemoryAllocator) (ctx : SlabReleaseContext)
    (pool : MemoryPool) (ac : AllocClass) (entry : ReleaseEntry)
    (hdr : SlabHeader)
    (hpool : ma.pools[ctx.poolId]? = some pool)
    (hac : pool.classes[ctx.classId]? = some ac)
    (hent : ac.releaseMap.lookup ctx.slabIdx = some entry)
    (hhdr : ma.slabAllocator.headers[ctx.slabIdx]? = some hdr)
    (hdisj : ∀ q ∈ entry.live, q ∉ entry.freed ∧ q ∉ ac.freeList) :
    ((ctx.released = true ∨ entry.live = []) →
      ma.abortSlabRelease ctx = (ma, .error .invalidArgument)) ∧
    (ctx.released = false → entry.live ≠ [] →
      (ma.abortSlabRelease ctx).2 = .ok () ∧
      (ma.abortSlabRelease ctx).1.slabAllocator.headers[ctx.slabIdx]? =
        some { hdr with markedForRelease := false } ∧
      ∃ pool2 ac2, (ma.abortSlabRelease ctx).1.pools[ctx.poolId]? = some pool2 ∧
        pool2.classes[ctx.classId]? = some ac2 ∧
        ctx.slabIdx ∈ ac2.allocatedSlabs ∧
        ac2.releaseMap.lookup ctx.slabIdx = none ∧
        (∀ q ∈ entry.freed, q ∈ ac2.freeList) ∧
        (∀ q ∈ entry.live, q ∉ ac2.freeList)) := by
  have hpoolLt : ctx.poolId < ma.pools.length := (List.getElem?_eq_some.mp hpool).1
  have hacLt : ctx.classId < pool.classes.length := (List.getElem?_eq_some.mp hac).1
  have hhdrLt : ctx.slabIdx < ma.slabAllocator.headers.length :=
    (List.getElem?_eq_some.mp hhdr).1
  constructor
  · rintro (hrel | hlive)
    · simp only [MemoryAllocator.abortSlabRelease, hrel]
      rfl
    · cases hrel : ctx.released with
      | true =>
        simp only [MemoryAllocator.abortSlabRelease, hrel]
        rfl
      | false =>
        simp only [MemoryAllocator.abortSlabRelease, hrel, Bool.false_eq_true,
          if_false, hpool, hac, hent]
        rw [if_pos (by rw [hlive]; rfl)]
  · intro hrel hlive
    have hne : entry.live.isEmpty = false := by
      cases hl : entry.live with
      | nil => exact absurd hl hlive
      | cons a as => rfl
    have hres : ma.abortSlabRelease ctx =
        ({ ma with
           slabAllocator :=
             { ma.slabAllocator with
               headers := ma.slabAllocator.headers.set ctx.slabIdx
                 { hdr with markedForRelease := false } },
           pools := ma.pools.set ctx.poolId
             { pool with
               classes := pool.classes.set ctx.classId
                 { ac with
                   freeList := entry.freed ++ ac.freeList,
                   allocatedSlabs := ctx.slabIdx :: ac.allocatedSlabs,
                   releaseMap :=
                     ac.releaseMap.filter (fun e => e.1 ≠ ctx.slabIdx) } } },
         .ok ()) := by
      simp only [MemoryAllocator.abortSlabRelease, hrel, Bool.false_eq_true,
        if_false, hpool, hac, hent, hhdr]
      rw [if_neg (by rw [hne]; exact Bool.false_ne_true)]
    rw [hres]
    refine ⟨rfl, ?_, ?_⟩
    · exact List.getElem?_set_eq_of_lt _ hhdrLt
    · refine ⟨_, _, List.getElem?_set_eq_of_lt _ hpoolLt,
        List.getElem?_set_eq_of_lt _ hacLt, ?_, ?_, ?_, ?_⟩
      · exact List.mem_cons_self _ _
      · exact lookup_filter_ne ctx.slabIdx ac.releaseMap
      · intro q hq
        exact List.mem_append_left _ hq
      · intro q hq
        intro hmem
        rcases List.mem_append.mp hmem with hm | hm
        · exact (hdisj q hq).1 hm
        · exact (hdisj q hq).2 hm

/-- Witness for C9: aborting the in-flight release on the concrete
mid-release state succeeds. -/
theorem abortSlabRelease_spec_witness :
    (releaseMA.abortSlabRelease releaseCtx).2 = .ok () := by
  exact ((abortSlabRelease_spec releaseMA releaseCtx
    ⟨"A", 8388608, 4194304, [⟨0, 2097152, [], [], [(0, ⟨[0], [2097152]⟩)]⟩]⟩
    ⟨0, 2097152, [], [], [(0, ⟨[0], [2097152]⟩)]⟩ ⟨[0], [2097152]⟩
    ⟨0, 0, 2097152, false, true⟩ (by decide) (by decide) (by decide) (by decide)
    (by decide)).2 rfl (by decide)).1

/-- Claim C6: addPool fails exactly when the name is empty or duplicate, the
size exceeds the unreserved budget, the pool directory is full (kMaxPools =
128), or ensureProvisionable is set and the size is below one slab per
allocation class; a duplicate name and a full directory are logic_error and
the other failures invalid_argument; on success the next free PoolId (at
most kMaxPoolId) is returned and the unreserved budget drops by the size. -/
theorem addPool_spec (ma : MemoryAllocator) (name : String) (size : Nat)
    (allocSizes : List Nat) (ep : Bool) (hnn : allocSizes ≠ []) :
    ((∃ e, (ma.addPool name size allocSizes ep).2 = .error e) ↔
      (name = "" ∨ (∃ p ∈ ma.pools, p.name = name) ∨ ma.bytesUnreserved < size ∨
        kMaxPools ≤ ma.pools.length ∨
        (ep = true ∧ size < allocSizes.length * slabSize))) ∧
    ((ma.addPool name size allocSizes ep).2 = .error .logicError →
      ((∃ p ∈ ma.pools, p.name = name) ∨ kMaxPools ≤ ma.pools.length)) ∧
    ((ma.addPool name size allocSizes ep).2 = .error .invalidArgument →
      (name = "" ∨ ma.bytesUnreserved < size ∨
        (ep = true ∧ size < allocSizes.length * slabSize))) ∧
    (∀ pid, (ma.addPool name size allocSizes ep).2 = .ok pid →
      pid = ma.pools.length ∧ pid ≤ kMaxPoolId ∧
      (ma.addPool name size allocSizes ep).1.bytesUnreserved =
        ma.bytesUnreserved - size) := by
  have hEmpF : ¬(allocSizes.isEmpty = true) := by
    cases allocSizes with
    | nil => exact absurd rfl hnn
    | cons a as => simp
  have hsz : (if allocSizes.isEmpty = true then ma.configAllocSizes
      else allocSizes) = allocSizes := if_neg hEmpF
  have hanyIff : (∃ p ∈ ma.pools, p.name = name) ↔
      ma.pools.any (fun p => p.name = name) = true := by
    simp [List.any_eq_true]
  by_cases h1 : name = ""
  · have hres : ma.addPool name size allocSizes ep =
        (ma, .error .invalidArgument) := by
      simp only [MemoryAllocator.addPool, hsz]
      rw [if_pos h1]
    rw [hres]
    refine ⟨⟨fun _ => Or.inl h1, fun _ => ⟨.invalidArgument, rfl⟩⟩,
      ?_, fun _ => Or.inl h1, ?_⟩
    · intro hbad; simp at hbad
    · intro pid hbad; simp at hbad
  by_cases h2 : ma.pools.any (fun p => p.name = name) = true
  · have hres : ma.addPool name size allocSizes ep =
        (ma, .error .logicError) := by
      simp only [MemoryAllocator.addPool, hsz]
      rw [if_neg h1, if_pos h2]
    rw [hres]
    refine ⟨⟨fun _ => Or.inr (Or.inl (hanyIff.mpr h2)),
      fun _ => ⟨.logicError, rfl⟩⟩, fun _ => Or.inl (hanyIff.mpr h2), ?_, ?_⟩
    · intro hbad; simp at hbad
    · intro pid hbad; simp at hbad
  by_cases h3 : ma.bytesUnreserved < size
  · have hres : ma.addPool name size allocSizes ep =
        (ma, .error .invalidArgument) := by
      simp only [MemoryAllocator.addPool, hsz]
      rw [if_neg h1, if_neg h2, if_pos h3]
    rw [hres]
    refine ⟨⟨fun _ => Or.inr (Or.inr (Or.inl h3)),
      fun _ => ⟨.invalidArgument, rfl⟩⟩, ?_,
      fun _ => Or.inr (Or.inl h3), ?_⟩
    · intro hbad; simp at hbad
    · intro pid hbad; simp at hbad
  by_cases h4 : kMaxPools ≤ ma.pools.length
  · have hres : ma.addPool name size allocSizes ep =
        (ma, .error .logicError) := by
      simp only [MemoryAllocator.addPool, hsz]
      rw [if_neg h1, if_neg h2, if_neg h3, if_pos h4]
    rw [hres]
    refine ⟨⟨fun _ => Or.inr (Or.inr (Or.inr (Or.inl h4))),
      fun _ => ⟨.logicError, rfl⟩⟩, fun _ => Or.inr h4, ?_, ?_⟩
    · intro hbad; simp at hbad
    · intro pid hbad; simp at hbad
  by_cases h5 : (ep && decide (size < allocSizes.length * slabSize)) = true
  · have hres : ma.addPool name size allocSizes ep =
        (ma, .error .invalidArgument) := by
      simp only [MemoryAllocator.addPool, hsz]
      rw [if_neg h1, if_neg h2, if_neg h3, if_neg h4, if_pos h5]
    rw [hres]
    have h5p : ep = true ∧ size < allocSizes.length * slabSize := by
      simpa [Bool.and_eq_true] using h5
    refine ⟨⟨fun _ => Or.inr (Or.inr (Or.inr (Or.inr h5p))),
      fun _ => ⟨.invalidArgument, rfl⟩⟩, ?_,
      fun _ => Or.inr (Or.inr h5p), ?_⟩
    · intro hbad; simp at hbad
    · intro pid hbad; simp at hbad
  · have hres : ma.addPool name size allocSizes ep =
        ({ ma with
           pools := ma.pools ++ [⟨name, size, 0, mkClasses allocSizes⟩],
           bytesUnreserved := ma.bytesUnreserved - size }, .ok ma.pools.length) := by
      simp only [MemoryAllocator.addPool, hsz]
      rw [if_neg h1, if_neg h2, if_neg h3, if_neg h4, if_neg h5]
    rw [hres]
    constructor
    · constructor
      · rintro ⟨e, hbad⟩; simp at hbad
      · rintro (h | h | h | h | h)
        · exact absurd h h1
        · exact absurd (hanyIff.mp h) h2
        · exact absurd h h3
        · exact absurd h h4
        · refine absurd ?_ h5
          rw [h.1]
          simpa using h.2
    · refine ⟨?_, ?_⟩
      · intro hbad; simp at hbad
      · refine ⟨fun hbad => by simp at hbad, ?_⟩
        intro pid hok
        have hpid : ma.pools.length = pid := by
          injection hok
        have e1 : kMaxPools = 128 := rfl
        have e2 : kMaxPoolId = 127 := rfl
        refine ⟨hpid.symm, by omega, rfl⟩

/-- Witness for C6: adding a duplicate pool name on the concrete manager
state fails. -/
theorem addPool_spec_witness :
    ∃ e, (mgrMA.addPool "A" 0 [64] false).2 = .error e := by
  exact (addPool_spec mgrMA "A" 0 [64] false (by decide)).1.mpr
    (Or.inr (Or.inl (by decide)))

theorem chunkLoop_subset (cb : Nat → TraversalDecision) :
    ∀ (cs : List Nat) (q : Nat), q ∈ (chunkLoop cb cs).2 → q ∈ cs
  | [], q, h => by simp [chunkLoop] at h
  | c :: cs, q, h => by
    simp only [chunkLoop] at h
    cases hc : cb c with
    | go =>
      rw [hc] at h
      simp only [List.mem_cons] at h
      rcases h with h | h
      · simp [h]
      · exact List.mem_cons_of_mem _ (chunkLoop_subset cb cs q h)
    | skipSlab =>
      rw [hc] at h
      simp only [List.mem_singleton] at h
      simp [h]
    | abortAll =>
      rw [hc] at h
      simp only [List.mem_singleton] at h
      simp [h]

theorem chunkLoop_no_abort (cb : Nat → TraversalDecision)
    (hnab : ∀ q, cb q ≠ .abortAll) :
    ∀ (cs : List Nat), (chunkLoop cb cs).1 ≠ .kAbortIteration
  | [] => by simp [chunkLoop]
  | c :: cs => by
    simp only [chunkLoop]
    cases hc : cb c with
    | go => simpa using chunkLoop_no_abort cb hnab cs
    | skipSlab => simp
    | abortAll => exact absurd hc (hnab c)

theorem feaGo_visited (ma : MemoryAllocator) (cb : Nat → TraversalDecision) :
    ∀ (idxs : List Nat) (k : Nat) (v : List Nat),
      MemoryAllocator.feaGo ma cb idxs = .ok (k, v) →
      ∀ q ∈ v, ∃ idx ∈ idxs, ∃ hdr pool ac,
        ma.slabAllocator.getSlabHeader (idx * slabSize) = some hdr ∧
        ¬(hdr.poolId = kInvalidPoolId ∨ hdr.classId = kInvalidClassId ∨
          hdr.advised = true ∨ hdr.markedForRelease = true) ∧
        ma.pools[hdr.poolId]? = some pool ∧
        pool.classes[hdr.classId]? = some ac ∧
        q ∈ carveChunks idx ac.allocSize
  | [], k, v, h, q, hq => by
    simp only [MemoryAllocator.feaGo, Except.ok.injEq, Prod.mk.injEq] at h
    rw [← h.2] at hq
    simp at hq
  | idx :: rest, k, v, h, q, hq => by
    simp only [MemoryAllocator.feaGo] at h
    cases hhd : ma.slabAllocator.getSlabHeader (idx * slabSize) with
    | none =>
      simp only [hhd] at h
      rcases feaGo_visited ma cb rest k v h q hq with ⟨i, hi, rest2⟩
      exact ⟨i, List.mem_cons_of_mem _ hi, rest2⟩
    | some hdr =>
      simp only [hhd] at h
      by_cases hskip : hdr.poolId = kInvalidPoolId ∨
          hdr.classId = kInvalidClassId ∨ hdr.advised = true ∨
          hdr.markedForRelease = true
      · rw [if_pos hskip] at h
        cases hrest : MemoryAllocator.feaGo ma cb rest with
        | error e => simp only [hrest] at h; simp [Except.map] at h
        | ok pr =>
          simp only [hrest] at h
          simp only [Except.map, Except.ok.injEq, Prod.mk.injEq] at h
          rw [← h.2] at hq
          rcases feaGo_visited ma cb rest pr.1 pr.2 (by rw [hrest]) q hq with
            ⟨i, hi, rest2⟩
          exact ⟨i, List.mem_cons_of_mem _ hi, rest2⟩
      · rw [if_neg hskip] at h
        cases hpl : ma.pools[hdr.poolId]? with
        | none => simp only [hpl] at h; simp at h
        | some pool =>
          simp only [hpl] at h
          cases hacl : pool.classes[hdr.classId]? with
          | none => simp only [hacl] at h; simp at h
          | some ac =>
            simp only [hacl] at h
            simp only [poolForEachAllocation] at h
            cases hpf : chunkLoop cb (carveChunks idx ac.allocSize) with
            | mk st vv =>
            have hvv : vv = (chunkLoop cb (carveChunks idx ac.allocSize)).2 := by
              rw [hpf]
            cases st with
            | kAbortIteration =>
              simp only [hpf] at h
              simp only [Except.ok.injEq, Prod.mk.injEq] at h
              rw [← h.2] at hq
              refine ⟨idx, List.mem_cons_self _ _, hdr, pool, ac, hhd, hskip,
                hpl, hacl, ?_⟩
              exact chunkLoop_subset cb _ q (by rw [← hvv]; exact hq)
            | kSkippedCurrentSlabAndContinue =>
              simp only [hpf] at h
              cases hrest : MemoryAllocator.feaGo ma cb rest with
              | error e => simp only [hrest] at h; simp [Except.map] at h
              | ok pr =>
                simp only [hrest] at h
                simp only [Except.map, Except.ok.injEq, Prod.mk.injEq] at h
                rw [← h.2] at hq
                rcases List.mem_append.mp hq with hq1 | hq1
                · refine ⟨idx, List.mem_cons_self _ _, hdr, pool, ac, hhd,
                    hskip, hpl, hacl, ?_⟩
                  exact chunkLoop_subset cb _ q (by rw [← hvv]; exact hq1)
                · rcases feaGo_visited ma cb rest pr.1 pr.2 (by rw [hrest]) q
                    hq1 with ⟨i, hi, rest2⟩
                  exact ⟨i, List.mem_cons_of_mem _ hi, rest2⟩
            | kFinishedCurrentSlabAndContinue =>
              simp only [hpf] at h
              cases hrest : MemoryAllocator.feaGo ma cb rest with
              | error e => simp only [hrest] at h; simp [Except.map] at h
              | ok pr =>
                simp only [hrest] at h
                simp only [Except.map, Except.ok.injEq, Prod.mk.injEq] at h
                rw [← h.2] at hq
                rcases List.mem_append.mp hq with hq1 | hq1
                · refine ⟨idx, List.mem_cons_self _ _, hdr, pool, ac, hhd,
                    hskip, hpl, hacl, ?_⟩
                  exact chunkLoop_subset cb _ q (by rw [← hvv]; exact hq1)
                · rcases feaGo_visited ma cb rest pr.1 pr.2 (by rw [hrest]) q
                    hq1 with ⟨i, hi, rest2⟩
                  exact ⟨i, List.mem_cons_of_mem _ hi, rest2⟩

theorem feaGo_count (ma : MemoryAllocator) (cb : Nat → TraversalDecision)
    (hnab : ∀ q, cb q ≠ .abortAll) :
    ∀ (idxs : List Nat) (k : Nat) (v : List Nat),
      MemoryAllocator.feaGo ma cb idxs = .ok (k, v) →
      k = idxs.countP (slabSkipB ma cb)
  | [], k, v, h => by
    simp only [MemoryAllocator.feaGo, Except.ok.injEq, Prod.mk.injEq] at h
    simp [← h.1]
  | idx :: rest, k, v, h => by
    simp only [MemoryAllocator.feaGo] at h
    rw [List.countP_cons]
    cases hhd : ma.slabAllocator.getSlabHeader (idx * slabSize) with
    | none =>
      simp only [hhd] at h
      have hsb : slabSkipB ma cb idx = false := by
        simp only [slabSkipB, hhd]
      have hcnt : (if slabSkipB ma cb idx = true then 1 else 0) = 0 := by
        rw [hsb]; decide
      rw [hcnt]
      have ih := feaGo_count ma cb hnab rest k v h
      omega
    | some hdr =>
      simp only [hhd] at h
      by_cases hskip : hdr.poolId = kInvalidPoolId ∨
          hdr.classId = kInvalidClassId ∨ hdr.advised = true ∨
          hdr.markedForRelease = true
      · rw [if_pos hskip] at h
        cases hrest : MemoryAllocator.feaGo ma cb rest with
        | error e => simp only [hrest] at h; simp [Except.map] at h
        | ok pr =>
          simp only [hrest] at h
          simp only [Except.map, Except.ok.injEq, Prod.mk.injEq] at h
          have hsb : slabSkipB ma cb idx = true := by
            simp only [slabSkipB, hhd]
            rw [if_pos hskip]
          have hcnt : (if slabSkipB ma cb idx = true then 1 else 0) = 1 := by
            rw [hsb]; decide
          rw [hcnt]
          have ih := feaGo_count ma cb hnab rest pr.1 pr.2 (by rw [hrest])
          omega
      · rw [if_neg hskip] at h
        cases hpl : ma.pools[hdr.poolId]? with
        | none => simp only [hpl] at h; simp at h
        | some pool =>
          simp only [hpl] at h
          cases hacl : pool.classes[hdr.classId]? with
          | none => simp only [hacl] at h; simp at h
          | some ac =>
            simp only [hacl] at h
            cases hpf : poolForEachAllocation ac idx cb with
            | mk st vv =>
            cases st with
            | kAbortIteration =>
              have : (poolForEachAllocation ac idx cb).1 =
                  SlabIterationStatus.kAbortIteration := by rw [hpf]
              exact absurd this (chunkLoop_no_abort cb hnab _)
            | kSkippedCurrentSlabAndContinue =>
              simp only [hpf] at h
              cases hrest : MemoryAllocator.feaGo ma cb rest with
              | error e => simp only [hrest] at h; simp [Except.map] at h
              | ok pr =>
                simp only [hrest] at h
                simp only [Except.map, Except.ok.injEq, Prod.mk.injEq] at h
                have hsb : slabSkipB ma cb idx = true := by
                  simp only [slabSkipB, hhd]
                  rw [if_neg hskip]
                  simp only [hpl, hacl, hpf]
                  simp
                have hcnt : (if slabSkipB ma cb idx = true then 1 else 0) = 1 := by
                  rw [hsb]; decide
                rw [hcnt]
                have ih := feaGo_count ma cb hnab rest pr.1 pr.2 (by rw [hrest])
                omega
            | kFinishedCurrentSlabAndContinue =>
              simp only [hpf] at h
              cases hrest : MemoryAllocator.feaGo ma cb rest with
              | error e => simp only [hrest] at h; simp [Except.map] at h
              | ok pr =>
                simp only [hrest] at h
                simp only [Except.map, Except.ok.injEq, Prod.mk.injEq] at h
                have hsb : slabSkipB ma cb idx = false := by
                  simp only [slabSkipB, hhd]
                  rw [if_neg hskip]
                  simp only [hpl, hacl, hpf]
                  simp
                have hcnt : (if slabSkipB ma cb idx = true then 1 else 0) = 0 := by
                  rw [hsb]; decide
                rw [hcnt]
                have ih := feaGo_count ma cb hnab rest pr.1 pr.2 (by rw [hrest])
                omega

/-- Counterexample to C3 as stated: on a state whose two usable slabs are
both assigned, unadvised and unmarked, a callback that aborts on the first
chunk makes forEachAllocation return a skip count of 0 and a visited set
containing only a chunk of slab 0 — slab 1 is never traversed yet is not
counted as skipped. -/
theorem forEachAllocation_abort_counterexample :
    cexMA.forEachAllocation (fun _ => .abortAll) = .ok (0, [0]) ∧
    cexMA.slabAllocator.numUsableSlabs = 2 ∧
    cexMA.slabAllocator.getSlabHeader (1 * slabSize) =
      some ⟨0, 0, slabSize, false, false⟩ ∧
    (∀ q ∈ [0], q ∉ carveChunks 1 slabSize) := by decide

/-- Claim C3 (amended): forEachAllocation invokes the callback only on chunks
of usable slabs that are assigned to a pool and class and neither advised nor
marked for release; provided the callback never requests abort, the returned
count is exactly the number of usable slabs skipped — those whose header is
unassigned, advised or marked for release, plus those the callback asked to
skip; a slab whose header does not resolve is passed over without being
counted, and on an abort the traversal returns only the count accumulated so
far, the remaining untraversed slabs being left uncounted. -/
theorem forEachAllocation_spec (ma : MemoryAllocator)
    (cb : Nat → TraversalDecision) (k : Nat) (v : List Nat)
    (h : ma.forEachAllocation cb = .ok (k, v)) :
    (∀ q ∈ v, ∃ idx, idx < ma.slabAllocator.numUsableSlabs ∧
      ∃ hdr pool ac,
        ma.slabAllocator.getSlabHeader (idx * slabSize) = some hdr ∧
        ¬(hdr.poolId = kInvalidPoolId ∨ hdr.classId = kInvalidClassId ∨
          hdr.advised = true ∨ hdr.markedForRelease = true) ∧
        ma.pools[hdr.poolId]? = some pool ∧
        pool.classes[hdr.classId]? = some ac ∧
        q ∈ carveChunks idx ac.allocSize) ∧
    ((∀ q, cb q ≠ .abortAll) →
      k = (List.range ma.slabAllocator.numUsableSlabs).countP
        (slabSkipB ma cb)) := by
  constructor
  · intro q hq
    rcases feaGo_visited ma cb
        (List.range ma.slabAllocator.numUsableSlabs) k v h q hq with
      ⟨i, hi, rest2⟩
    exact ⟨i, List.mem_range.mp hi, rest2⟩
  · intro hnab
    exact feaGo_count ma cb hnab _ k v h

/-- Witness for C3 (amended) with an always-continue callback on the concrete
two-slab state: both slabs are traversed and the skip count is 0. -/
theorem forEachAllocation_spec_witness :
    (0 : Nat) = (List.range cexMA.slabAllocator.numUsableSlabs).countP
      (slabSkipB cexMA (fun _ => .go)) := by
  exact (forEachAllocation_spec cexMA (fun _ => .go) 0 [0, 4194304]
    (by decide)).2 (fun q => by intro hbad; exact absurd hbad (by decide))

theorem le_alignUp (n a : Nat) (ha : 0 < a) : n ≤ alignUp n a := by
  unfold alignUp
  have hdm := Nat.div_add_mod (n + a - 1) a
  have hmod : (n + a - 1) % a < a := Nat.mod_lt _ ha
  have hcomm : ((n + a - 1) / a) * a = a * ((n + a - 1) / a) := Nat.mul_comm _ _
  omega

theorem den_lt_num_of_one_lt {factor : ℚ} (hf : 1 < factor) :
    (factor.den : ℤ) < factor.num := by
  have h0 : (0 : ℚ) < (factor.den : ℚ) := by exact_mod_cast factor.den_pos
  have h1 : (1 : ℚ) < (factor.num : ℚ) / (factor.den : ℚ) := by
    rw [Rat.num_div_den]; exact hf
  rw [lt_div_iff₀ h0, one_mul] at h1
  exact_mod_cast h1

theorem clNext_gt (factor : ℚ) (hf : 1 < factor) (size : Nat) (hs : 1 ≤ size) :
    size < clNext factor size := by
  have hdenpos : 0 < factor.den := factor.den_pos
  have hnum : (factor.den : ℤ) < factor.num := den_lt_num_of_one_lt hf
  have hp : factor.den < factor.num.toNat := by omega
  have hmul : size * factor.den + size ≤ size * factor.num.toNat := by
    have h1 : size * (factor.den + 1) ≤ size * factor.num.toNat :=
      Nat.mul_le_mul_left size hp
    have h2 : size * (factor.den + 1) = size * factor.den + size := by ring
    omega
  have hdiv : size + 1 ≤
      (size * factor.num.toNat + factor.den - 1) / factor.den := by
    rw [Nat.le_div_iff_mul_le hdenpos]
    have h3 : (size + 1) * factor.den = size * factor.den + factor.den := by ring
    omega
  have halign := le_alignUp
    ((size * factor.num.toNat + factor.den - 1) / factor.den) kAlignment
    (by decide)
  unfold clNext
  omega

theorem isErr_map (f : List Nat → List Nat)
    (r : Except AllocError (List Nat)) : isErr (r.map f) = isErr r := by
  cases r <;> rfl

theorem genLoop_error_iff (factor : ℚ) (maxSize : Nat) (rf : Bool)
    (hf : 1 < factor) :
    ∀ (fuel size : Nat), 1 ≤ size → maxSize + 2 ≤ fuel + size →
      isErr (genLoop factor maxSize rf fuel size) =
        (rf && fragCollision factor maxSize fuel size)
  | 0, size, hs, hfuel => by
    have hgt : maxSize < size := by omega
    simp only [genLoop, fragCollision]
    rw [if_pos hgt]
    simp [isErr]
  | fuel + 1, size, hs, hfuel => by
    have hnxt := clNext_gt factor hf size hs
    have ih := genLoop_error_iff factor maxSize rf hf fuel (clNext factor size)
      (by omega) (by omega)
    by_cases hgt : maxSize < size
    · simp only [genLoop, fragCollision]
      rw [if_pos hgt, if_pos hgt]
      simp [isErr]
    · simp only [genLoop, fragCollision]
      rw [if_neg hgt, if_neg hgt]
      cases rf with
      | false =>
        rw [if_neg (by simp)]
        rw [isErr_map]
        rw [ih]
        simp
      | true =>
        by_cases hcol : clNext factor size ≤ maxSize ∧
            snapSize (clNext factor size) = snapSize size
        · rw [if_pos ⟨rfl, hcol.1, by simpa [insVal] using hcol.2⟩,
            if_pos hcol]
          simp [isErr]
        · rw [if_neg ?hna, if_neg hcol]
          case hna =>
            rintro ⟨-, hc1, hc2⟩
            exact hcol ⟨hc1, by simpa [insVal] using hc2⟩
          rw [isErr_map, ih]

/-- Claim C7: generateAllocSizes returns the ladder of sizes obtained by
starting at minSize and repeatedly multiplying by the factor (rounded up to
the alignment) until exceeding maxSize — concretely, factor 2.0 from 64 up
to 4 MiB yields {64, 128, ..., 2097152, 4194304} — and it throws
invalid_argument exactly when the factor is at most 1.0, maxSize exceeds the
slab size, or reduce_fragmentation is set and no size growth occurs between
consecutive steps (two consecutive snapped sizes collide). -/
theorem generateAllocSizes_spec :
    generateAllocSizes 2 4194304 64 false =
      .ok [64, 128, 256, 512, 1024, 2048, 4096, 8192, 16384, 32768, 65536,
        131072, 262144, 524288, 1048576, 2097152, 4194304] ∧
    (∀ (factor : ℚ) (maxSize minSize : Nat) (rf : Bool), 1 ≤ minSize →
      (isErr (generateAllocSizes factor maxSize minSize rf) = true ↔
        (slabSize < maxSize ∨ factor ≤ 1 ∨
          (rf = true ∧
            fragCollision factor maxSize (maxSize + 1) minSize = true)))) := by
  constructor
  · decide
  · intro factor maxSize minSize rf hmin
    by_cases h1 : slabSize < maxSize
    · simp only [generateAllocSizes]
      rw [if_pos h1]
      simp [isErr, h1]
    · simp only [generateAllocSizes]
      rw [if_neg h1]
      by_cases h2 : factor ≤ 1
      · rw [if_pos h2]
        simp [isErr, h2]
      · rw [if_neg h2]
        have hf : 1 < factor := lt_of_not_le h2
        have hiff := genLoop_error_iff factor maxSize rf hf (maxSize + 1)
          minSize hmin (by omega)
        rw [hiff]
        constructor
        · intro hand
          simp only [Bool.and_eq_true] at hand
          exact Or.inr (Or.inr hand)
        · rintro (hbad | hbad | hpair)
          · exact absurd hbad h1
          · exact absurd hbad h2
          · simp [hpair.1, hpair.2]

/-- Witness for C7: a max size above the slab size makes the generator
fail. -/
theorem generateAllocSizes_spec_witness :
    isErr (generateAllocSizes 2 8388608 64 false) = true := by
  exact (generateAllocSizes_spec.2 2 8388608 64 false (by decide)).mpr
    (Or.inl (by decide))

end Mooncake
